import Mathlib

/-!
Shallow embedding of the SQL transformation pipeline of the
dashboard-client-service repository (notebook `client-service.ipynb`
and the accompanying SQL document).

Timestamps are modelled as seconds since the PostgreSQL-style epoch
1970-01-01 00:00:00 (a Thursday), so
  calendar date  = ts / 86400,
  time of day    = ts % 86400,
  day of week    = (ts / 86400 + 4) % 7   (0 = Sunday, 5 = Friday),
matching `date_request::date`, `date_request::time` and
`EXTRACT(dow FROM date_request)`.
-/

/-- Row of the `dict_calendar` reference table: a calendar date (in days
since the epoch) and its `is_working` flag (the table stores 0/1 integers). -/
structure CalEntry where
  date_calendar : Nat
  is_working : Nat
deriving DecidableEq

/-- Result of the `LEFT JOIN dict_calendar dc ON fr.date_req = dc.date_calendar`:
the `is_working` value of the first matching row, or `none` when the date has
no row (SQL NULL). -/
def calLookup (cal : List CalEntry) (d : Nat) : Option Nat :=
  (cal.find? (fun e => e.date_calendar == d)).map (fun e => e.is_working)

/-- Minimum of a list of dates; `none` on the empty list.  This is SQL
`MIN(...)`, which yields NULL over an empty set. -/
def minDate : List Nat → Option Nat
  | [] => none
  | d :: ds =>
    match minDate ds with
    | none => some d
    | some m => some (min d m)

/-- Embedding of the scalar subquery
`SELECT MIN(dc.date_calendar) FROM dict_calendar dc
 WHERE dc.date_calendar > fr.date_req AND dc.is_working = 1`. -/
def nextWorking (cal : List CalEntry) (q : Nat) : Option Nat :=
  minDate ((cal.filter (fun e => decide (q < e.date_calendar ∧ e.is_working = 1))).map
    (fun e => e.date_calendar))

/-- Embedding of the `CASE` expression of the `shift_request` CTE, computing
`date_registration` from the request timestamp `ts` and the calendar.
SQL three-valued logic: when the calendar lookup misses, `dc.is_working`
is NULL, every `WHEN` comparison is unknown (not true), and the `ELSE`
branch fires.  The first branch returns `none` exactly when the `MIN`
subquery is NULL (NULL + interval = NULL). -/
def shift_request (cal : List CalEntry) (ts : Nat) : Option Nat :=
  let date_req := ts / 86400
  let time_req := ts % 86400
  let dow := (date_req + 4) % 7
  let wk := calLookup cal date_req
  if wk = some 0 ∨ (wk = some 1 ∧ dow = 5 ∧ 72000 < time_req) then
    (nextWorking cal date_req).map (fun d => d * 86400 + 32400)
  else if wk = some 1 ∧ time_req < 32400 then
    some (date_req * 86400 + 32400)
  else if wk = some 1 ∧ dow ≠ 5 ∧ 72000 < time_req then
    some ((date_req + 1) * 86400 + 32400)
  else
    some ts

/-- PostgreSQL `ROUND(x / 3600, 2)` of a signed number `s` of seconds,
expressed in centihours: the nearest integer to `s / 36`, ties rounded
away from zero (`ROUND` on `numeric` rounds half away from zero). -/
def round2ch (s : Int) : Int :=
  if 0 ≤ s then ((2 * s.toNat + 36) / 72 : Nat)
  else -(((2 * (-s).toNat + 36) / 72 : Nat))

/-- Embedding of
`ROUND(EXTRACT(EPOCH FROM date_response - date_registration) / 3600, 2)`:
NULL when either operand is NULL, otherwise the difference in seconds
divided by 3600 rounded to 2 decimal places, as an exact rational. -/
def interval_hours (date_response : Option Int) (date_registration : Option Int) :
    Option Rat :=
  match date_response, date_registration with
  | some resp, some reg => some ((round2ch (resp - reg) : Rat) / 100)
  | _, _ => none

/-- Row of the `all_raw` event log, with the columns the pipeline reads. -/
structure Event where
  id_client : Nat
  date_request : Nat
  date_response : Option Nat
  manager : Nat
  source_client : String
  action_manager : String
deriving DecidableEq

/-- Filter of the `all_response` CTE:
`action_manager = 'response' AND source_client IN (SELECT name_source FROM source_list)`. -/
def qualifies (srcs : List String) (e : Event) : Bool :=
  (e.action_manager == "response") && srcs.contains e.source_client

/-- Strict order used by `ROW_NUMBER() OVER (... ORDER BY date_response ASC)`:
PostgreSQL `ASC` sorts NULLs last. -/
def respLt (e b : Event) : Bool :=
  match e.date_response, b.date_response with
  | some t, some u => t < u
  | some _, none => true
  | none, _ => false

/-- One fold step keeping the earliest-response event seen so far; on a tie
the earlier row is kept, a deterministic realisation of `ROW_NUMBER`'s
arbitrary-but-unique choice of the `rn = 1` row. -/
def pickFirst (acc : Option Event) (e : Event) : Option Event :=
  match acc with
  | none => some e
  | some b => if respLt e b then some e else some b

/-- Qualifying events of client `c`: the rows of the `all_response` CTE whose
partition key is `c`. -/
def clientEvents (srcs : List String) (evs : List Event) (c : Nat) : List Event :=
  evs.filter (fun e => qualifies srcs e && (e.id_client == c))

/-- Embedding of the `first_response` CTE restricted to client `c`: the row
with `rn = 1` in `c`'s partition, `none` when the partition is empty. -/
def firstResponse (srcs : List String) (evs : List Event) (c : Nat) : Option Event :=
  (clientEvents srcs evs c).foldl pickFirst none

/-- Distinct clients owning at least one qualifying event: the partition keys
of the `ROW_NUMBER` window. -/
def qualClients (srcs : List String) (evs : List Event) : List Nat :=
  ((evs.filter (qualifies srcs)).map (fun e => e.id_client)).dedup

/-- Rows of the `first_response` CTE, one per partition. -/
def v_first_events (srcs : List String) (evs : List Event) : List Event :=
  (qualClients srcs evs).filterMap (firstResponse srcs evs)

/-- Output row of the `v_response_first` view (columns of the final
`SELECT *, ROUND(...) AS interval_hours FROM shift_request`). -/
structure SlaRecord where
  id_client : Nat
  manager : Nat
  date_request : Nat
  date_response : Option Nat
  date_registration : Option Nat
  interval_hours : Option Rat
deriving DecidableEq

/-- The `shift_request` CTE plus the step-4 `interval_hours` column applied to
one `first_response` row. -/
def toSla (cal : List CalEntry) (e : Event) : SlaRecord :=
  let reg := shift_request cal e.date_request
  { id_client := e.id_client
    manager := e.manager
    date_request := e.date_request
    date_response := e.date_response
    date_registration := reg
    interval_hours :=
      interval_hours (e.date_response.map Int.ofNat) (reg.map Int.ofNat) }

/-- Embedding of the whole `v_response_first` view. -/
def v_response_first (srcs : List String) (cal : List CalEntry) (evs : List Event) :
    List SlaRecord :=
  (v_first_events srcs evs).map (toSla cal)

/-- Row of the `dict_candidate` roster table. -/
structure Candidate where
  idUpper : Nat
  id_client : Nat
  date_request : Nat
  source_client : String
deriving DecidableEq

/-- Row of the `dash_client_service_view` output. -/
structure DashRow where
  id_client : Nat
  response_status : String
  date_request : Nat
  date_registration : Option Nat
  date_response : Option Nat
  interval_hours : Option Rat
  manager : Option Nat
deriving DecidableEq

/-- Embedding of `dash_client_service_view`: roster rows whose source is in
the allow-list, LEFT JOINed on `vrf.id_client = dc."ID"`, with
`response_status` `'wait'` when `date_response` is NULL and `'done'` otherwise. -/
def dash_client_service_view (srcs : List String) (cal : List CalEntry)
    (evs : List Event) (cands : List Candidate) : List DashRow :=
  (cands.filter (fun dc => srcs.contains dc.source_client)).flatMap (fun dc =>
    let ms := (v_response_first srcs cal evs).filter (fun v => v.id_client == dc.idUpper)
    if ms.isEmpty then
      [{ id_client := dc.id_client
         response_status := "wait"
         date_request := dc.date_request
         date_registration := none
         date_response := none
         interval_hours := none
         manager := none }]
    else
      ms.map (fun v =>
        { id_client := dc.id_client
          response_status := if v.date_response.isNone then "wait" else "done"
          date_request := dc.date_request
          date_registration := v.date_registration
          date_response := v.date_response
          interval_hours := v.interval_hours
          manager := some v.manager }))

/-- Step-7 refresh of the materialized `dash_client_service_table`:
`TRUNCATE TABLE ...;` then `INSERT INTO ... SELECT * FROM dash_client_service_view;`
as two autocommitted statements.  `reload_ok = false` models a reload that
fails after the truncate has committed: the table is left in the truncated
state. -/
def dash_refresh (view : List DashRow) (reload_ok : Bool) (_table : List DashRow) :
    List DashRow :=
  let truncated : List DashRow := []
  if reload_ok then truncated ++ view else truncated

/-! ### Helper lemmas about `minDate` and `nextWorking` -/

/-- The SQL `MIN` of an empty set is NULL: `minDate` is `none` only there. -/
theorem minDate_none : ∀ {l : List Nat}, minDate l = none → l = [] := by
  intro l h
  cases l with
  | nil => rfl
  | cons x xs =>
    simp only [minDate] at h
    cases hm : minDate xs <;> rw [hm] at h <;> simp at h

/-- A non-NULL `minDate` is an element of the list. -/
theorem minDate_mem : ∀ {l : List Nat} {d : Nat}, minDate l = some d → d ∈ l := by
  intro l
  induction l with
  | nil => intro d h; simp [minDate] at h
  | cons x xs ih =>
    intro d h
    simp only [minDate] at h
    cases hm : minDate xs with
    | none =>
      rw [hm] at h
      simp only [Option.some.injEq] at h
      subst h
      exact List.mem_cons_self x xs
    | some m =>
      rw [hm] at h
      simp only [Option.some.injEq] at h
      subst h
      rcases Nat.le_total x m with hle | hle
      · rw [Nat.min_eq_left hle]; exact List.mem_cons_self x xs
      · rw [Nat.min_eq_right hle]; exact List.mem_cons_of_mem x (ih hm)

/-- A non-NULL `minDate` is a lower bound of the list. -/
theorem minDate_le : ∀ {l : List Nat} {d : Nat}, minDate l = some d → ∀ x ∈ l, d ≤ x := by
  intro l
  induction l with
  | nil => intro d _ x hx; simp at hx
  | cons y ys ih =>
    intro d h x hx
    simp only [minDate] at h
    cases hm : minDate ys with
    | none =>
      rw [hm] at h
      simp only [Option.some.injEq] at h
      subst h
      have hnil := minDate_none hm
      subst hnil
      have hxy : x = y := by simpa using hx
      subst hxy
      exact Nat.le_refl x
    | some m =>
      rw [hm] at h
      simp only [Option.some.injEq] at h
      subst h
      rcases List.mem_cons.mp hx with h1 | h1
      · subst h1; exact Nat.min_le_left _ _
      · exact Nat.le_trans (Nat.min_le_right _ _) (ih hm _ h1)

/-- A non-NULL next working date is strictly after the request date. -/
theorem nextWorking_gt {cal : List CalEntry} {q d : Nat}
    (h : nextWorking cal q = some d) : q < d := by
  have hmem := minDate_mem h
  simp only [List.mem_map, List.mem_filter, decide_eq_true_eq] at hmem
  obtain ⟨e, ⟨_, hq, _⟩, hde⟩ := hmem
  omega

/-- A non-NULL next working date is marked working in the calendar. -/
theorem nextWorking_marked {cal : List CalEntry} {q d : Nat}
    (h : nextWorking cal q = some d) :
    ∃ e ∈ cal, e.date_calendar = d ∧ e.is_working = 1 := by
  have hmem := minDate_mem h
  simp only [List.mem_map, List.mem_filter, decide_eq_true_eq] at hmem
  obtain ⟨e, ⟨he, _, hw⟩, hde⟩ := hmem
  exact ⟨e, he, hde, hw⟩

/-- A non-NULL next working date is the least working calendar date strictly
after the request date. -/
theorem nextWorking_least {cal : List CalEntry} {q d : Nat}
    (h : nextWorking cal q = some d) :
    ∀ e ∈ cal, q < e.date_calendar → e.is_working = 1 → d ≤ e.date_calendar := by
  intro e he hq hw
  refine minDate_le h e.date_calendar ?_
  simp only [List.mem_map, List.mem_filter, decide_eq_true_eq]
  exact ⟨e, ⟨he, hq, hw⟩, rfl⟩

/-! ### Claims about `shift_request` -/

/-- C1: when the request's calendar date is non-working, or is a working
Friday with time-of-day strictly after 20:00, the registration timestamp is
09:00 on the next working calendar date; that date is strictly after the
request date, is marked working, and is the earliest such date. -/
theorem C1_rule1_next_working (cal : List CalEntry) (ts d : Nat)
    (hcond : calLookup cal (ts / 86400) = some 0 ∨
      (calLookup cal (ts / 86400) = some 1 ∧ (ts / 86400 + 4) % 7 = 5 ∧
        72000 < ts % 86400))
    (hd : nextWorking cal (ts / 86400) = some d) :
    shift_request cal ts = some (d * 86400 + 32400) ∧
      ts / 86400 < d ∧
      (∃ e ∈ cal, e.date_calendar = d ∧ e.is_working = 1) ∧
      (∀ e ∈ cal, ts / 86400 < e.date_calendar → e.is_working = 1 →
        d ≤ e.date_calendar) := by
  refine ⟨?_, nextWorking_gt hd, nextWorking_marked hd, nextWorking_least hd⟩
  simp only [shift_request]
  rw [if_pos hcond, hd]
  rfl

/-- C1 witness: a request at 10:00 on Sunday 1970-01-04 (day 3, non-working)
with Monday (day 4) working is shifted to Monday 09:00. -/
theorem C1_witness :
    shift_request [⟨3, 0⟩, ⟨4, 1⟩] 295200 = some (4 * 86400 + 32400) ∧
      295200 / 86400 < 4 ∧
      (∃ e ∈ [(⟨3, 0⟩ : CalEntry), ⟨4, 1⟩], e.date_calendar = 4 ∧ e.is_working = 1) ∧
      (∀ e ∈ [(⟨3, 0⟩ : CalEntry), ⟨4, 1⟩], 295200 / 86400 < e.date_calendar →
        e.is_working = 1 → 4 ≤ e.date_calendar) :=
  C1_rule1_next_working [⟨3, 0⟩, ⟨4, 1⟩] 295200 4 (Or.inl (by decide)) (by decide)

/-- C2 counterexample: day 3 has no `dict_calendar` row while day 4 is a
working date after it; the `CASE` falls through to `ELSE` and the request
timestamp 295200 (day 3, 10:00) is returned unchanged, not shifted to
day 4 at 09:00 as the claim requires. -/
theorem C2_counterexample :
    calLookup [⟨4, 1⟩] (295200 / 86400) = none ∧
      nextWorking [⟨4, 1⟩] (295200 / 86400) = some 4 ∧
      shift_request [⟨4, 1⟩] 295200 = some 295200 ∧
      shift_request [⟨4, 1⟩] 295200 ≠ some (4 * 86400 + 32400) := by decide

/-- C2 amended: on a calendar lookup miss, `dc.is_working` is SQL NULL, every
`WHEN` comparison is unknown, and the `ELSE` branch returns the request
timestamp unchanged — the miss is not treated as non-working. -/
theorem C2_miss_identity (cal : List CalEntry) (ts : Nat)
    (hmiss : calLookup cal (ts / 86400) = none) :
    shift_request cal ts = some ts := by
  simp only [shift_request, hmiss]
  simp

/-- C2 amended witness: the counterexample input, evaluated through the
amended theorem. -/
theorem C2_miss_identity_witness :
    calLookup [⟨4, 1⟩] (295200 / 86400) = none ∧
      shift_request [⟨4, 1⟩] 295200 = some 295200 :=
  ⟨by decide, C2_miss_identity [⟨4, 1⟩] 295200 (by decide)⟩

/-- C3: on a rule-1 request (day 3 non-working, request 295200) whose calendar
has no working date after the request date, the `MIN` subquery is NULL and the
code silently yields a NULL `date_registration` — no `CalendarExhausted`
condition is signalled anywhere in the pipeline. -/
theorem C3_exhausted_silent_null :
    calLookup [⟨3, 0⟩] (295200 / 86400) = some 0 ∧
      nextWorking [⟨3, 0⟩] (295200 / 86400) = none ∧
      shift_request [⟨3, 0⟩] 295200 = none := by decide

/-- C4: whenever `shift_request` yields a (non-NULL) registration timestamp,
it is at least the request timestamp. -/
theorem C4_registration_ge_request (cal : List CalEntry) (ts r : Nat)
    (h : shift_request cal ts = some r) : ts ≤ r := by
  simp only [shift_request] at h
  split at h
  · cases hnw : nextWorking cal (ts / 86400) with
    | none => rw [hnw] at h; simp at h
    | some d =>
      rw [hnw] at h
      simp at h
      have hgt := nextWorking_gt hnw
      omega
  · split at h
    · rename_i hc2
      obtain ⟨-, h2⟩ := hc2
      simp only [Option.some.injEq] at h
      omega
    · split at h
      · rename_i hc3
        obtain ⟨-, -, h3⟩ := hc3
        simp only [Option.some.injEq] at h
        omega
      · simp only [Option.some.injEq] at h
        omega

/-- C4 witness: a request on a day with no calendar row is returned unchanged
and trivially satisfies the bound. -/
theorem C4_witness : shift_request [] 100 = some 100 ∧ 100 ≤ 100 :=
  ⟨by decide, C4_registration_ge_request [] 100 100 (by decide)⟩

/-- C5: on a working calendar day with time-of-day in the closed interval
[09:00, 20:00] the request timestamp is returned unchanged. -/
theorem C5_identity_in_hours (cal : List CalEntry) (ts : Nat)
    (hw : calLookup cal (ts / 86400) = some 1)
    (h1 : 32400 ≤ ts % 86400) (h2 : ts % 86400 ≤ 72000) :
    shift_request cal ts = some ts := by
  simp only [shift_request, hw]
  have hlt : ¬ 72000 < ts % 86400 := by omega
  have hge : ¬ ts % 86400 < 32400 := by omega
  simp [hlt, hge]

/-- C5 witness: 10:00 on working Monday (day 4) is kept as is; the endpoints
09:00:00 and 20:00:00 are also covered by the theorem's closed interval. -/
theorem C5_witness :
    calLookup [⟨4, 1⟩] (381600 / 86400) = some 1 ∧
      32400 ≤ 381600 % 86400 ∧ 381600 % 86400 ≤ 72000 ∧
      shift_request [⟨4, 1⟩] 381600 = some 381600 :=
  ⟨by decide, by decide, by decide,
    C5_identity_in_hours [⟨4, 1⟩] 381600 (by decide) (by decide) (by decide)⟩

/-- C6: on a working non-Friday day with time-of-day strictly after 20:00 the
registration timestamp is the next calendar day at 09:00, with no condition at
all on whether that next day is working. -/
theorem C6_weekday_evening (cal : List CalEntry) (ts : Nat)
    (hw : calLookup cal (ts / 86400) = some 1)
    (hf : (ts / 86400 + 4) % 7 ≠ 5)
    (ht : 72000 < ts % 86400) :
    shift_request cal ts = some ((ts / 86400 + 1) * 86400 + 32400) := by
  simp only [shift_request, hw]
  have hge : ¬ ts % 86400 < 32400 := by omega
  simp [hf, hge, ht]

/-- C6 witness: 20:16:40 on working Monday (day 4) rolls to Tuesday (day 5)
09:00 even though day 5 is marked non-working in the calendar. -/
theorem C6_witness :
    calLookup [⟨4, 1⟩, ⟨5, 0⟩] (418600 / 86400) = some 1 ∧
      (418600 / 86400 + 4) % 7 ≠ 5 ∧ 72000 < 418600 % 86400 ∧
      calLookup [⟨4, 1⟩, ⟨5, 0⟩] (418600 / 86400 + 1) = some 0 ∧
      shift_request [⟨4, 1⟩, ⟨5, 0⟩] 418600 = some ((418600 / 86400 + 1) * 86400 + 32400) :=
  ⟨by decide, by decide, by decide, by decide,
    C6_weekday_evening [⟨4, 1⟩, ⟨5, 0⟩] 418600 (by decide) (by decide) (by decide)⟩

/-! ### Rounding and `interval_hours` -/

/-- Centihour rounding error bound: `round2ch s` is within half a centihour
of the exact value `s / 36`, i.e. `|36 * round2ch s - s| ≤ 18`. -/
theorem round2ch_close (s : Int) :
    -18 ≤ 36 * round2ch s - s ∧ 36 * round2ch s - s ≤ 18 := by
  unfold round2ch
  split
  · rename_i h
    constructor <;> omega
  · rename_i h
    constructor <;> omega

/-- C7: with both operands present, `interval_hours` is an exact 2-decimal
rational within half a unit in the last place of the exact elapsed-hours
value `(response - registration) / 3600`; with the response absent it is
NULL. -/
theorem C7_elapsed_hours (resp reg : Int) (q : Rat)
    (h : interval_hours (some resp) (some reg) = some q) :
    (∃ n : Int, q = (n : Rat) / 100) ∧
      |q - ((resp : Rat) - (reg : Rat)) / 3600| ≤ 1 / 200 ∧
      interval_hours none (some reg) = none := by
  simp only [interval_hours, Option.some.injEq] at h
  subst h
  refine ⟨⟨round2ch (resp - reg), rfl⟩, ?_, rfl⟩
  have hb := round2ch_close (resp - reg)
  have heq : ((round2ch (resp - reg) : Rat)) / 100 - ((resp : Rat) - (reg : Rat)) / 3600
      = ((36 * round2ch (resp - reg) - (resp - reg) : Int) : Rat) / 3600 := by
    push_cast
    ring
  rw [heq]
  have h36 : |((36 * round2ch (resp - reg) - (resp - reg) : Int) : Rat)| ≤ 18 := by
    rw [← Int.cast_abs]
    have habs : |36 * round2ch (resp - reg) - (resp - reg)| ≤ 18 :=
      abs_le.mpr ⟨hb.1, hb.2⟩
    exact_mod_cast habs
  rw [abs_div]
  have h3600 : |(3600 : Rat)| = 3600 := by norm_num
  rw [h3600]
  rw [div_le_div_iff₀ (by norm_num) (by norm_num)]
  nlinarith [h36]

/-- C7 witness: a response 2 hours 30 minutes (9000 seconds) after
registration gives exactly 2.50 elapsed hours, and an absent response gives
NULL. -/
theorem C7_witness :
    interval_hours (some 9000) (some 0) = some (5 / 2 : Rat) ∧
      (∃ n : Int, (5 / 2 : Rat) = (n : Rat) / 100) ∧
      |(5 / 2 : Rat) - ((9000 : Rat) - (0 : Rat)) / 3600| ≤ 1 / 200 ∧
      interval_hours none (some 0) = none := by
  have hEx : interval_hours (some 9000) (some 0) = some (5 / 2 : Rat) := by
    have h : round2ch (9000 - 0) = 250 := by decide
    simp only [interval_hours, h]
    norm_num
  have hMain := C7_elapsed_hours 9000 0 (5 / 2) hEx
  exact ⟨hEx, hMain.1, hMain.2.1, hMain.2.2⟩

/-! ### First-response uniqueness -/

/-- Folding `pickFirst` from a present accumulator stays present. -/
theorem foldl_pickFirst_isSome (l : List Event) :
    ∀ b : Event, (l.foldl pickFirst (some b)).isSome := by
  induction l with
  | nil => intro b; rfl
  | cons e es ih =>
    intro b
    simp only [List.foldl_cons, pickFirst]
    split <;> exact ih _

/-- A present fold result is the accumulator's content or a list element. -/
theorem foldl_pickFirst_mem (l : List Event) :
    ∀ (acc : Option Event) (e : Event),
      l.foldl pickFirst acc = some e → acc = some e ∨ e ∈ l := by
  induction l with
  | nil => intro acc e h; exact Or.inl h
  | cons x xs ih =>
    intro acc e h
    simp only [List.foldl_cons] at h
    rcases ih (pickFirst acc x) e h with hacc | hmem
    · cases acc with
      | none =>
        simp only [pickFirst] at hacc
        right
        simp only [Option.some.injEq] at hacc
        subst hacc
        exact List.mem_cons_self x xs
      | some b =>
        simp only [pickFirst] at hacc
        split at hacc
        · right
          simp only [Option.some.injEq] at hacc
          subst hacc
          exact List.mem_cons_self x xs
        · exact Or.inl hacc
    · exact Or.inr (List.mem_cons_of_mem x hmem)

/-- The `rn = 1` row of a client's partition belongs to that partition. -/
theorem firstResponse_mem {srcs : List String} {evs : List Event} {c : Nat} {e : Event}
    (h : firstResponse srcs evs c = some e) : e ∈ clientEvents srcs evs c := by
  rcases foldl_pickFirst_mem (clientEvents srcs evs c) none e h with hacc | hmem
  · simp at hacc
  · exact hmem

/-- The `rn = 1` row of client `c` carries `id_client = c`. -/
theorem firstResponse_id {srcs : List String} {evs : List Event} {c : Nat} {e : Event}
    (h : firstResponse srcs evs c = some e) : e.id_client = c := by
  have hmem := firstResponse_mem h
  simp only [clientEvents, List.mem_filter, Bool.and_eq_true, beq_iff_eq] at hmem
  exact hmem.2.2

/-- A non-empty partition yields a (unique) `rn = 1` row. -/
theorem firstResponse_isSome {srcs : List String} {evs : List Event} {c : Nat}
    (h : clientEvents srcs evs c ≠ []) :
    (firstResponse srcs evs c).isSome := by
  unfold firstResponse
  cases hce : clientEvents srcs evs c with
  | nil => exact absurd hce h
  | cons x xs =>
    simp only [List.foldl_cons, pickFirst]
    exact foldl_pickFirst_isSome xs x

/-- Counting lemma: mapping a partial function that tags each key with itself
over a duplicate-free key list puts exactly one record per present key. -/
theorem filterMap_count (f : Nat → Option Event) (c : Nat) :
    ∀ l : List Nat, l.Nodup →
      (∀ c' ∈ l, ∃ e, f c' = some e ∧ e.id_client = c') →
      ((l.filterMap f).filter (fun e => e.id_client == c)).length
        = if c ∈ l then 1 else 0 := by
  intro l
  induction l with
  | nil => intro _ _; simp
  | cons x xs ih =>
    intro hnd hf
    obtain ⟨ex, hex, hid⟩ := hf x (List.mem_cons_self x xs)
    have hnd' := (List.nodup_cons.mp hnd).2
    have hx_not : x ∉ xs := (List.nodup_cons.mp hnd).1
    have ih' := ih hnd' (fun c' hc' => hf c' (List.mem_cons_of_mem x hc'))
    simp only [List.filterMap_cons, hex, List.filter_cons]
    by_cases hcx : c = x
    · subst hcx
      have : (ex.id_client == c) = true := by simp [hid]
      rw [if_pos this]
      simp only [List.length_cons, ih']
      rw [if_neg (by simpa using hx_not), if_pos (List.mem_cons_self c xs)]
    · have : ¬ (ex.id_client == c) = true := by simp [hid]; omega
      rw [if_neg this, ih']
      by_cases hc : c ∈ xs
      · rw [if_pos hc, if_pos (List.mem_cons_of_mem x hc)]
      · rw [if_neg hc, if_neg (by simpa [List.mem_cons, hc] using hcx)]

/-- Membership in the partition-key list is having a qualifying event. -/
theorem mem_qualClients {srcs : List String} {evs : List Event} {c : Nat} :
    c ∈ qualClients srcs evs ↔ ∃ e ∈ evs, qualifies srcs e ∧ e.id_client = c := by
  simp only [qualClients, List.mem_dedup, List.mem_map, List.mem_filter]
  constructor
  · rintro ⟨e, ⟨he, hq⟩, hid⟩
    exact ⟨e, he, hq, hid⟩
  · rintro ⟨e, he, hq, hid⟩
    exact ⟨e, ⟨he, hq⟩, hid⟩

/-- A partition key has a non-empty partition. -/
theorem qualClients_firstResponse {srcs : List String} {evs : List Event} {c : Nat}
    (hc : c ∈ qualClients srcs evs) :
    ∃ e, firstResponse srcs evs c = some e ∧ e.id_client = c := by
  obtain ⟨e, he, hq, hid⟩ := mem_qualClients.mp hc
  have hne : clientEvents srcs evs c ≠ [] := by
    intro hnil
    have : e ∈ clientEvents srcs evs c := by
      simp only [clientEvents, List.mem_filter, Bool.and_eq_true, beq_iff_eq]
      exact ⟨he, hq, hid⟩
    rw [hnil] at this
    simp at this
  obtain ⟨e', he'⟩ := Option.isSome_iff_exists.mp (firstResponse_isSome hne)
  exact ⟨e', he', firstResponse_id he'⟩

/-- C8: the `v_response_first` view has exactly one record for every client
with at least one qualifying event (even under ties on the earliest
`date_response`) and none for any other client. -/
theorem C8_first_response_unique (srcs : List String) (cal : List CalEntry)
    (evs : List Event) (c : Nat) :
    ((v_response_first srcs cal evs).filter (fun r => r.id_client == c)).length
      = if ∃ e ∈ evs, qualifies srcs e ∧ e.id_client = c then 1 else 0 := by
  have hcomm : ∀ e : Event, ((toSla cal e).id_client == c) = (e.id_client == c) := by
    intro e
    rfl
  have hmap : (v_response_first srcs cal evs).filter (fun r => r.id_client == c)
      = ((v_first_events srcs evs).filter (fun e => e.id_client == c)).map (toSla cal) := by
    simp only [v_response_first, List.filter_map]
    congr 1
  rw [hmap, List.length_map]
  have hcount := filterMap_count (firstResponse srcs evs) c (qualClients srcs evs)
    (List.nodup_dedup _) (fun c' hc' => qualClients_firstResponse hc')
  simp only [v_first_events]
  rw [hcount]
  by_cases hc : c ∈ qualClients srcs evs
  · rw [if_pos hc, if_pos (mem_qualClients.mp hc)]
  · rw [if_neg hc, if_neg (fun hex => hc (mem_qualClients.mpr hex))]

/-! ### Refresh of the materialized table -/

/-- A previously published dashboard row, used as prior table contents. -/
def priorRow : DashRow :=
  { id_client := 1
    response_status := "done"
    date_request := 0
    date_registration := none
    date_response := none
    interval_hours := none
    manager := none }

/-- C9 counterexample: with one previously published row, a refresh whose
reload fails after the autocommitted `TRUNCATE` leaves the table empty — the
previous contents are not preserved, so consumers observe a
partially-emptied result set. -/
theorem C9_counterexample :
    dash_refresh [] false [priorRow] = [] ∧
      dash_refresh [] false [priorRow] ≠ [priorRow] := by
  constructor
  · rfl
  · intro h
    simp [dash_refresh] at h

/-- C9 amended: a refresh whose reload fails leaves the materialized table in
the truncated (empty) state, whatever was published before and whatever the
view holds. -/
theorem C9_failed_reload_truncates (view table : List DashRow) :
    dash_refresh view false table = [] := rfl

/-! ### Negative elapsed hours through the full pipeline -/

/-- Calendar for the C10 scenario: day 3 (a Sunday) non-working, day 4
working. -/
def calC10 : List CalEntry := [⟨3, 0⟩, ⟨4, 1⟩]

/-- Event for the C10 scenario: request at 10:00 and response at 11:06:40 on
the same non-working Sunday (day 3), qualifying source and action. -/
def evC10 : Event :=
  { id_client := 7
    date_request := 295200
    date_response := some 299200
    manager := 1
    source_client := "source 1"
    action_manager := "response" }

/-- Roster row for the C10 scenario, matching the event's client. -/
def candC10 : Candidate :=
  { idUpper := 7
    id_client := 7
    date_request := 295200
    source_client := "source 1" }

/-- The single dashboard row the pipeline emits in the C10 scenario. -/
def rowC10 : DashRow :=
  { id_client := 7
    response_status := "done"
    date_request := 295200
    date_registration := some 378000
    date_response := some 299200
    interval_hours := interval_hours (some 299200) (some 378000)
    manager := some 1 }

/-- C10: for a request and response both on the same non-working day, the
registration timestamp (378000, Monday 09:00) exceeds the response timestamp
(299200), and the dashboard view emits a row whose `interval_hours` is the
negative value -21.89 — nothing in the pipeline guards against it. -/
theorem C10_negative_elapsed :
    shift_request calC10 evC10.date_request = some 378000 ∧
      evC10.date_response = some 299200 ∧ 299200 < 378000 ∧
      (dash_client_service_view ["source 1"] calC10 [evC10] [candC10]).map
        (fun r => r.interval_hours) = [some ((-2189 : Rat) / 100)] ∧
      ((-2189 : Rat) / 100 : Rat) < 0 := by
  refine ⟨by decide, rfl, by decide, ?_, by norm_num⟩
  have h1 : dash_client_service_view ["source 1"] calC10 [evC10] [candC10] = [rowC10] := by
    rfl
  rw [h1]
  have h2 : round2ch (299200 - 378000) = -2189 := by decide
  simp only [List.map_cons, List.map_nil, rowC10, interval_hours, h2]
  norm_num
